import Mathlib

/-!
Verification of the VK content-ingestion and scheduled-publish engines of the
EuroBot backend (`backend/app/routers/vk_integration.py`, `backend/app/main.py`,
`backend/app/models/vk_integration.py`).

Text is modelled as `List Char`; timestamps as `Int` (seconds, naive Moscow
wall-clock, i.e. unix seconds shifted by +3h where the code does
`fromtimestamp(..., MOSCOW_TZ).replace(tzinfo=None)`); machine integers as
`Int`/`Nat` (no overflow is relevant here); database tables as Lean lists;
the remote VK API as an explicit oracle value.
-/

namespace EuroBot

/-- Models Python's `\w` character class for the alphabets this codebase uses:
ASCII alphanumerics, underscore, and the Russian Cyrillic letters. -/
def isWordChar (c : Char) : Bool :=
  c.isAlphanum || c == '_' ||
    (decide (0x410 ≤ c.toNat) && decide (c.toNat ≤ 0x44F)) || c == 'ё' || c == 'Ё'

/-- Models Python's `str.lower` for the alphabets this codebase uses
(ASCII letters and Russian Cyrillic). -/
def lowerChar (c : Char) : Char :=
  if decide ('A' ≤ c) && decide (c ≤ 'Z') then Char.ofNat (c.toNat + 32)
  else if decide (0x410 ≤ c.toNat) && decide (c.toNat ≤ 0x42F) then Char.ofNat (c.toNat + 0x20)
  else if c == 'Ё' then 'ё'
  else c

def lowerList (l : List Char) : List Char := l.map lowerChar

/-- Python whitespace characters stripped by `str.strip()`. -/
def isPySpace (c : Char) : Bool :=
  c == ' ' || c == '\t' || c == '\n' || c == '\r' || c == '\x0b' || c == '\x0c'

/-- Models Python `str.strip()`: remove whitespace from both ends. -/
def pyStrip (l : List Char) : List Char :=
  ((l.dropWhile isPySpace).reverse.dropWhile isPySpace).reverse

/-- Attempts to match the tail of a VK mention token right after the opening
bracket: `tag` (`club` or `id`), then one or more digits, then `|`, then one or
more non-`]` characters (the visible label, the greedy `[^\]]+` of the regex),
then `]`.  Returns the label and the remaining input, mirroring one match of
`\[club\d+\|([^\]]+)\]` / `\[id\d+\|([^\]]+)\]`. -/
def matchMention (tag : List Char) (l : List Char) : Option (List Char × List Char) :=
  if l.take tag.length ≠ tag then none
  else
    let l1 := l.drop tag.length
    let ds := l1.takeWhile (fun c => c.isDigit)
    let l2 := l1.dropWhile (fun c => c.isDigit)
    if ds.isEmpty then none
    else
      match l2 with
      | '|' :: l3 =>
        let lab := l3.takeWhile (fun c => c != ']')
        let l4 := l3.dropWhile (fun c => c != ']')
        if lab.isEmpty then none
        else
          match l4 with
          | ']' :: l5 => some (lab, l5)
          | _ => none
      | _ => none

theorem dropWhile_length_le (p : Char → Bool) (l : List Char) :
    (l.dropWhile p).length ≤ l.length := by
  induction l with
  | nil => simp
  | cons c rest ih =>
    by_cases h : p c
    · simp only [List.dropWhile_cons, h, if_true]
      exact Nat.le_succ_of_le ih
    · simp [List.dropWhile_cons, h]

/-- One pass of `re.sub(r'\[TAG\d+\|([^\]]+)\]', r'\1', text)` for a fixed
mention tag: scan left to right, replace each non-overlapping match by its
label, leave everything else unchanged.  Structured with explicit fuel (each
step consumes at least one input character, so `l.length` fuel always
suffices and the zero-fuel branch is unreachable). -/
def subMentionGo (tag : List Char) : Nat → List Char → List Char
  | 0, l => l
  | _ + 1, [] => []
  | fuel + 1, c :: rest =>
    if c = '[' then
      match matchMention tag rest with
      | some (lab, rest2) => lab ++ subMentionGo tag fuel rest2
      | none => c :: subMentionGo tag fuel rest
    else c :: subMentionGo tag fuel rest

def subMention (tag : List Char) (l : List Char) : List Char :=
  subMentionGo tag l.length l

/-- `clean_vk_text`: replace `[club…|label]` and `[id…|label]` mention tokens
by their labels (two regex passes, club first), then strip whitespace. -/
def clean_vk_text (text : List Char) : List Char :=
  pyStrip (subMention ['i', 'd'] (subMention ['c', 'l', 'u', 'b'] text))

/-- One pass of `re.sub(r'#\w+', '', text)`: delete every hashtag token
(`#` followed by one or more word characters), scanning left to right.
Fuel-structured like `subMentionGo`; `l.length` fuel always suffices. -/
def stripHashtagsGo : Nat → List Char → List Char
  | 0, l => l
  | _ + 1, [] => []
  | fuel + 1, '#' :: c :: rest =>
    if isWordChar c then stripHashtagsGo fuel (rest.dropWhile isWordChar)
    else '#' :: stripHashtagsGo fuel (c :: rest)
  | fuel + 1, c :: rest => c :: stripHashtagsGo fuel rest

def stripHashtags (l : List Char) : List Char :=
  stripHashtagsGo l.length l

/-- `extract_hashtags`: `re.findall(r'#(\w+)', text)` — the word parts of all
hashtag tokens, in order of occurrence.  Fuel-structured; `l.length` fuel
always suffices. -/
def extract_hashtagsGo : Nat → List Char → List (List Char)
  | 0, _ => []
  | _ + 1, [] => []
  | fuel + 1, '#' :: c :: rest =>
    if isWordChar c then
      (c :: rest.takeWhile isWordChar) :: extract_hashtagsGo fuel (rest.dropWhile isWordChar)
    else extract_hashtagsGo fuel (c :: rest)
  | fuel + 1, _ :: rest => extract_hashtagsGo fuel rest

def extract_hashtags (l : List Char) : List (List Char) :=
  extract_hashtagsGo l.length l

/-- Python `s.rsplit(' ', 1)[0]`: everything before the last space, or the
whole string when it contains no space. -/
def rsplitLastSpace (l : List Char) : List Char :=
  if l.contains ' ' then (((l.reverse).dropWhile (fun c => c != ' ')).drop 1).reverse
  else l

def ellipsis : List Char := ['.', '.', '.']

/-- The fixed fallback title `'Пост ВКонтакте'`. -/
def fallbackTitle : List Char := "Пост ВКонтакте".data

/-- `make_title_from_text`: clean the text, strip hashtags, take the first
line, truncate over-long lines at the last space within the first `maxLen`
characters and add an ellipsis, and fall back to a fixed label when empty. -/
def make_title_from_text (text : List Char) (maxLen : Nat := 150) : List Char :=
  let clean := clean_vk_text text
  let clean2 := pyStrip (stripHashtags clean)
  let firstLine := pyStrip (clean2.takeWhile (fun c => c != '\n'))
  let t :=
    if maxLen < firstLine.length then rsplitLastSpace (firstLine.take maxLen) ++ ellipsis
    else firstLine
  if t.isEmpty then fallbackTitle else t

/-- Inner loop of `determine_category`: scan the hashtag map in insertion
order; an entry matches when its key, with all leading `#` stripped
(`map_tag.lstrip('#')`) and lowercased, equals the lowercased tag and its
category id exists in the database. -/
def lookupTag (tagLower : List Char) (m : List (List Char × Nat)) (cats : List Nat) :
    Option Nat :=
  match m with
  | [] => none
  | (k, cid) :: m2 =>
    if lowerList (k.dropWhile (fun c => c == '#')) == tagLower && cats.contains cid then
      some cid
    else lookupTag tagLower m2 cats

/-- Outer loop of `determine_category`: first hashtag (in order of occurrence)
with a matching, still-existing category wins. -/
def findCat (tags : List (List Char)) (m : List (List Char × Nat)) (cats : List Nat) :
    Option Nat :=
  match tags with
  | [] => none
  | t :: ts =>
    match lookupTag (lowerList t) m cats with
    | some c => some c
    | none => findCat ts m cats

/-- `determine_category(text, hashtag_map, default_category_id, db)`.
`cats` is the set of existing `NewsCategory` ids (`db.get(NewsCategory, cat_id)`
succeeds iff the id is in it).  A missing or empty map falls through to the
default (`if hashtag_map:`). -/
def determine_category (text : List Char) (hashtagMap : Option (List (List Char × Nat)))
    (defaultCategoryId : Option Nat) (cats : List Nat) : Option Nat :=
  match hashtagMap with
  | none => defaultCategoryId
  | some m =>
    if m.isEmpty then defaultCategoryId
    else
      match findCat (extract_hashtags text) m cats with
      | some c => some c
      | none => defaultCategoryId

/-! ## Data model

`News` and `NewsCategory` live in `app/models/news.py`, which is not part of
the provided sources; the `News` record below is modelled from the spec
(§3 "Article") and from how the routers read and write its attributes.
`NewsCategory` only ever matters through existence of its id, so the category
table is a list of ids. -/

/-- Modelled from the spec: the Article entity (`app/models/news.py` is not in
the sources).  Fields are those named in spec §3 and used by
`import_vk_post` and `scheduled_news_publisher`. -/
structure News where
  id : Nat
  title : List Char
  slug : List Char
  excerpt : List Char
  content : List Char
  featured_image : Option (List Char)
  video_url : Option (List Char)
  gallery : Option (List (List Char))
  category_id : Option Nat
  is_published : Bool
  is_featured : Bool
  publish_date : Option Int
  scheduled_publish_at : Option Int
  created_at : Int
  deriving DecidableEq, Repr

/-- `VKImportedPost` (the dedup-ledger row). -/
structure VKImportedPost where
  vk_post_id : Nat
  vk_integration_id : Nat
  news_id : Option Nat
  vk_post_date : Int
  deriving DecidableEq, Repr

/-- `VKIntegration`.  The serialized hashtag map column is modelled at the
deserialize boundary as an optional association list in insertion order
(`json.dumps`/`json.loads` become the identity). -/
structure VKIntegration where
  id : Nat
  group_id : List Char
  access_token : List Char
  mode : String
  default_category_id : Option Nat
  auto_publish : Bool
  check_interval_minutes : Int
  fetch_count : Int
  hashtag_category_map : Option (List (List Char × Nat))
  last_checked_at : Option Int
  deriving DecidableEq, Repr

/-- A raw VK wall post as consumed by the importers. -/
structure PhotoSize where
  width : Nat
  height : Nat
  url : List Char
  deriving DecidableEq, Repr

inductive Attachment where
  | photo (sizes : List PhotoSize)
  | video (player : Option (List Char)) (owner_id : Option Int) (vid_id : Option Int)
      (access_key : Option (List Char)) (image : List PhotoSize) (photo : List PhotoSize)
  | other
  deriving DecidableEq, Repr

structure VKPost where
  id : Nat
  text : List Char
  date : Int
  attachments : List Attachment
  marked_as_ads : Bool
  deriving DecidableEq, Repr

/-- The content database: news rows, ledger rows, existing category ids, and
the autoincrement counter for news ids. -/
structure DBState where
  news : List News
  ledger : List VKImportedPost
  categories : List Nat
  nextNewsId : Nat
  deriving DecidableEq, Repr

/-! ## Slug resolution -/

/-- Modelled from the spec: `generate_slug` (`app/utils/slug.py` is not in the
sources; the spec only says "slugified title").  Lowercase, ASCII
alphanumerics kept, every other character becomes a hyphen, hyphen runs
collapsed and trimmed; a title without ASCII alphanumerics slugifies to the
empty string (the importer then falls back to `vk-post-{id}`). -/
def generate_slug (title : List Char) : List Char :=
  let mapped := title.map (fun c => if c.isAlphanum then c.toLower else '-')
  let squeezed := mapped.foldr
    (fun c acc => if c == '-' && acc.headD '-' == '-' then acc else c :: acc) []
  (squeezed.dropWhile (fun c => c == '-')).reverse.dropWhile (fun c => c == '-') |>.reverse

/-- `ensure_unique_slug`: probe `slug`, `slug-1`, `slug-2`, … against the
existing news slugs until a free one is found.  The candidate list is longer
than the table, so the fuel (`taken.length + 1` attempts) always suffices. -/
def ensure_unique_slug_go (base : List Char) (taken : List (List Char)) :
    Nat → Nat → List Char
  | 0, k => base ++ '-' :: (Nat.repr k).data
  | fuel + 1, k =>
    let cand := if k = 0 then base else base ++ '-' :: (Nat.repr k).data
    if taken.contains cand then ensure_unique_slug_go base taken fuel (k + 1) else cand

def ensure_unique_slug (slug : List Char) (s : DBState) : List Char :=
  ensure_unique_slug_go slug (s.news.map (·.slug)) (s.news.length + 1) 0

/-! ## Media extraction (the attachment loop of `import_vk_post`) -/

/-- Python truthiness of an optional string (`None` and `''` are falsy). -/
def truthyStr (o : Option (List Char)) : Bool :=
  match o with
  | some u => !u.isEmpty
  | none => false

/-- Python truthiness of an optional integer (`''`-defaulted `get` and `0` are
falsy). -/
def truthyInt (o : Option Int) : Bool :=
  match o with
  | some v => v != 0
  | none => false

/-- `max(sizes, key=lambda s: s.get("width",0)*s.get("height",0))`: Python's
`max` keeps the first element among ties. -/
def bestSize (first : PhotoSize) (rest : List PhotoSize) : PhotoSize :=
  rest.foldl (fun cur s => if cur.width * cur.height < s.width * s.height then s else cur) first

/-- The synthesized embeddable video URL
`https://vk.com/video_ext.php?oid={owner}&id={id}[&hash={key}]&hd=2`. -/
def buildVideoUrl (owner vid : Int) (key : Option (List Char)) : List Char :=
  "https://vk.com/video_ext.php?oid=".data ++ (toString owner).data ++
    "&id=".data ++ (toString vid).data ++
    (if truthyStr key then "&hash=".data ++ key.getD [] else []) ++
    "&hd=2".data

/-- One step of the attachment loop, threading
`(featured_image, gallery_images, video_url)`. -/
def mediaStep (acc : Option (List Char) × List (List Char) × Option (List Char))
    (att : Attachment) : Option (List Char) × List (List Char) × Option (List Char) :=
  let (featured, gallery, video) := acc
  match att with
  | .photo sizes =>
    match sizes with
    | [] => acc
    | s0 :: srest =>
      let url := (bestSize s0 srest).url
      if url.isEmpty then acc
      else if truthyStr featured then (featured, gallery ++ [url], video)
      else (some url, gallery, video)
  | .video player owner vid key image photo =>
    if video.isSome then acc
    else
      let v2 :=
        match player with
        | some p =>
          if !p.isEmpty then some p
          else if truthyInt owner && truthyInt vid then
            some (buildVideoUrl (owner.getD 0) (vid.getD 0) key)
          else none
        | none =>
          if truthyInt owner && truthyInt vid then
            some (buildVideoUrl (owner.getD 0) (vid.getD 0) key)
          else none
      let thumbs := if !image.isEmpty then image else photo
      let featured2 :=
        match thumbs with
        | [] => featured
        | t0 :: ts => if truthyStr featured then featured else some ((bestSize t0 ts).url)
      (featured2, gallery, v2)
  | .other => acc

def extract_media (atts : List Attachment) :
    Option (List Char) × List (List Char) × Option (List Char) :=
  atts.foldl mediaStep (none, [], none)

/-! ## The import orchestrator (`import_vk_post`) -/

/-- Key predicate of the dedup-ledger query:
`vk_post_id == post_id AND vk_integration_id == integration.id`. -/
def ledgerKey (postId integId : Nat) (r : VKImportedPost) : Bool :=
  r.vk_post_id == postId && r.vk_integration_id == integId

/-- The `News(...)` row constructed by `import_vk_post` for a post: transform
the text, categorize, slugify, set publish fields from `auto_publish`; its
id is the next autoincrement value (assigned at `flush`). -/
def importedNewsRow (post : VKPost) (integ : VKIntegration) (s : DBState) : News :=
  let category_id :=
    determine_category post.text integ.hashtag_category_map integ.default_category_id
      s.categories
  let title := make_title_from_text post.text
  let content := clean_vk_text post.text
  let content_html := content.flatMap (fun c => if c = '\n' then "<br/>".data else [c])
  let (featured_image, gallery_images, video_url) := extract_media post.attachments
  let gallery := if gallery_images.isEmpty then none else some gallery_images
  let post_date := post.date + 3 * 3600
  let slug0 := generate_slug title
  let slug1 := if slug0.isEmpty then "vk-post-".data ++ (Nat.repr post.id).data else slug0
  let slug := ensure_unique_slug slug1 s
  { id := s.nextNewsId
    title := title
    slug := slug
    excerpt := content.take 300
    content := content_html
    featured_image := featured_image
    video_url := video_url
    gallery := gallery
    category_id := category_id
    is_published := integ.auto_publish
    is_featured := integ.auto_publish
    publish_date := if integ.auto_publish then some post_date else none
    scheduled_publish_at := none
    created_at := post_date }

/-- The `VKImportedPost(...)` ledger row linking the new article. -/
def importedLedgerRow (post : VKPost) (integ : VKIntegration) (s : DBState) :
    VKImportedPost :=
  { vk_post_id := post.id
    vk_integration_id := integ.id
    news_id := some s.nextNewsId
    vk_post_date := post.date + 3 * 3600 }

/-- The fresh-import tail of `import_vk_post`: create the `News` row, flush
(assigning the next id), and insert the ledger row linking it. -/
def doImport (post : VKPost) (integ : VKIntegration) (s : DBState) : DBState × Option Nat :=
  ({ s with
      news := s.news ++ [importedNewsRow post integ s]
      ledger := s.ledger ++ [importedLedgerRow post integ s]
      nextNewsId := s.nextNewsId + 1 },
    some s.nextNewsId)

/-- `import_vk_post(post, integration, db)`: skip empty text; consult the
ledger; on a live linked article return a no-op; purge a stale entry and
reimport; otherwise import fresh.  Returns the new state and the id of the
created article, if any. -/
def import_vk_post (post : VKPost) (integ : VKIntegration) (s : DBState) :
    DBState × Option Nat :=
  if post.text.isEmpty then (s, none)
  else
    match s.ledger.find? (ledgerKey post.id integ.id) with
    | some r =>
      match r.news_id with
      | some nid =>
        if s.news.any (fun n => n.id == nid) then (s, none)
        else doImport post integ
          { s with ledger := s.ledger.eraseP (ledgerKey post.id integ.id) }
      | none => doImport post integ
          { s with ledger := s.ledger.eraseP (ledgerKey post.id integ.id) }
    | none => doImport post integ s

/-- The per-post body shared by the ingestion loop and the manual trigger:
`if post.get("marked_as_ads"): continue` and then `import_vk_post`. -/
def process_post (post : VKPost) (integ : VKIntegration) (s : DBState) :
    DBState × Option Nat :=
  if post.marked_as_ads then (s, none) else import_vk_post post integ s

/-- Fold of `process_post` over a fetched batch in received order, counting
created articles (`imported_count`). -/
def runImports (posts : List VKPost) (integ : VKIntegration) (s : DBState) :
    DBState × Nat :=
  posts.foldl
    (fun acc p =>
      match process_post p integ acc.1 with
      | (s2, some _) => (s2, acc.2 + 1)
      | (s2, none) => (s2, acc.2))
    (s, 0)

/-! ## Scheduler: ingestion tick (`vk_fetch_task`) and manual trigger
(`fetch_now`)

The remote `wall.get` call is an oracle: indexed by the requested batch size
for the manual trigger, and per integration id for the loop.  Its three
outcomes mirror §7: a transport failure (exception), the VK error envelope,
or a page of posts. -/

inductive FetchResult where
  | transportFailure
  | apiError
  | ok (posts : List VKPost)
  deriving DecidableEq, Repr

/-- `integration.fetch_count or 20`: the batch size actually passed to
`fetch_vk_posts` (a stored 0/NULL falls back to 20; no clamping happens
here). -/
def effectiveFetchCount (fc : Int) : Int :=
  if fc = 0 then 20 else fc

/-- The interval-throttle test of the ingestion loop:
skip when a checkpoint exists and `(now − last).total_seconds()/60 <
check_interval_minutes` (times in seconds). -/
def vk_tick_throttled (now : Int) (integ : VKIntegration) : Bool :=
  match integ.last_checked_at with
  | some last => decide (now - last < integ.check_interval_minutes * 60)
  | none => false

/-- Outcome of one integration inside one ingestion tick: the database, the
(possibly checkpoint-advanced) integration row, whether a fetch call was
issued, and with which `count`. -/
structure IntegrationOutcome where
  db : DBState
  integ : VKIntegration
  fetched : Bool
  usedCount : Option Int
  deriving DecidableEq, Repr

/-- Body of the `for integration in integrations:` loop of `vk_fetch_task`:
throttle check, fetch, skip on error envelope (checkpoint untouched), import
the batch and advance the checkpoint on success, roll back on exception
(checkpoint untouched). -/
def vk_process_integration (now : Int) (fetch : FetchResult) (integ : VKIntegration)
    (db : DBState) : IntegrationOutcome :=
  if vk_tick_throttled now integ then ⟨db, integ, false, none⟩
  else
    let count := effectiveFetchCount integ.fetch_count
    match fetch with
    | .transportFailure => ⟨db, integ, true, some count⟩
    | .apiError => ⟨db, integ, true, some count⟩
    | .ok posts =>
      ⟨(runImports posts integ db).1, { integ with last_checked_at := some now },
        true, some count⟩

/-- One ingestion tick: `select(VKIntegration).where(mode == "auto")`, then the
per-integration body over each row in order, threading the session. -/
def vk_fetch_tick (now : Int) (fetch : Nat → FetchResult) (integs : List VKIntegration)
    (db : DBState) : List VKIntegration × DBState :=
  (integs.filter (fun i => i.mode == "auto")).foldl
    (fun acc i =>
      let out := vk_process_integration now (fetch i.id) i acc.2
      (acc.1 ++ [out.integ], out.db))
    ([], db)

/-- The admin-facing state: the (at most one) integration row plus the content
database. -/
structure AdminState where
  integration : Option VKIntegration
  db : DBState
  nextIntegrationId : Nat
  deriving DecidableEq, Repr

inductive FetchNowError where
  | notConfigured
  | modeOff
  | vkApi
  | transport
  deriving DecidableEq, Repr

/-- `POST /vk-integration/fetch-now`: 404 when unconfigured, 400 when mode is
`off`, otherwise a single fetch-and-import pass; an error envelope or an
exception surfaces as an HTTP error with nothing committed.  On success the
checkpoint advances and `{imported, total_checked}` is returned. -/
def fetch_now (now : Int) (fetch : Int → FetchResult) (st : AdminState) :
    Except FetchNowError (AdminState × Nat × Nat) :=
  match st.integration with
  | none => .error .notConfigured
  | some integ =>
    if integ.mode == "off" then .error .modeOff
    else
      match fetch (effectiveFetchCount integ.fetch_count) with
      | .transportFailure => .error .transport
      | .apiError => .error .vkApi
      | .ok posts =>
        .ok
          ({ st with
              integration := some { integ with last_checked_at := some now }
              db := (runImports posts integ st.db).1 },
            (runImports posts integ st.db).2, posts.length)

/-! ## Admin configuration endpoints -/

structure VKIntegrationCreate where
  group_id : List Char
  access_token : List Char
  mode : String := "off"
  default_category_id : Option Nat := none
  auto_publish : Bool := true
  check_interval_minutes : Int := 10
  fetch_count : Int := 20
  hashtag_category_map : Option (List (List Char × Nat)) := none
  deriving DecidableEq, Repr

structure VKIntegrationUpdate where
  group_id : Option (List Char) := none
  access_token : Option (List Char) := none
  mode : Option String := none
  default_category_id : Option Nat := none
  auto_publish : Option Bool := none
  check_interval_minutes : Option Int := none
  fetch_count : Option Int := none
  hashtag_category_map : Option (List (List Char × Nat)) := none
  deriving DecidableEq, Repr

/-- `POST /vk-integration` — create or replace: delete the old row first (the
`imported_posts` relationship cascade-deletes its ledger rows; news rows are
untouched), then insert the new configuration verbatim (an empty hashtag map
is stored as NULL via `json.dumps(...) if ... else None`; `fetch_count` is
NOT clamped here). -/
def create_vk_integration (data : VKIntegrationCreate) (st : AdminState) : AdminState :=
  let st2 :=
    match st.integration with
    | some old =>
      { st with
          integration := none
          db := { st.db with
                    ledger := st.db.ledger.filter
                      (fun r => !(r.vk_integration_id == old.id)) } }
    | none => st
  let hmap :=
    match data.hashtag_category_map with
    | some m => if m.isEmpty then none else some m
    | none => none
  let integ : VKIntegration :=
    { id := st2.nextIntegrationId
      group_id := data.group_id
      access_token := data.access_token
      mode := data.mode
      default_category_id := data.default_category_id
      auto_publish := data.auto_publish
      check_interval_minutes := data.check_interval_minutes
      fetch_count := data.fetch_count
      hashtag_category_map := hmap
      last_checked_at := none }
  { st2 with integration := some integ, nextIntegrationId := st2.nextIntegrationId + 1 }

/-- `PUT /vk-integration` — partial update of a configured integration: each
provided field is applied; `mode` only when it is one of off/auto/manual;
`fetch_count` clamped by `max(1, min(100, ...))`. -/
def update_vk_integration (d : VKIntegrationUpdate) (i : VKIntegration) : VKIntegration :=
  let i1 := match d.group_id with
    | some g => { i with group_id := g }
    | none => i
  let i2 := match d.access_token with
    | some t => { i1 with access_token := t }
    | none => i1
  let i3 := match d.default_category_id with
    | some c => { i2 with default_category_id := some c }
    | none => i2
  let i4 := match d.mode with
    | some m =>
      if m == "off" || m == "auto" || m == "manual" then { i3 with mode := m } else i3
    | none => i3
  let i5 := match d.auto_publish with
    | some b => { i4 with auto_publish := b }
    | none => i4
  let i6 := match d.check_interval_minutes with
    | some n => { i5 with check_interval_minutes := n }
    | none => i5
  let i7 := match d.fetch_count with
    | some n => { i6 with fetch_count := max 1 (min 100 n) }
    | none => i6
  match d.hashtag_category_map with
  | some m => { i7 with hashtag_category_map := some m }
  | none => i7

/-! ## Scheduled-publish engine (`scheduled_news_publisher` in `main.py`) -/

/-- The selection predicate of the publish tick:
`is_published == False AND scheduled_publish_at != None AND
scheduled_publish_at <= now`. -/
def eligibleForPublish (now : Int) (n : News) : Bool :=
  !n.is_published &&
    (match n.scheduled_publish_at with
     | some t => decide (t ≤ now)
     | none => false)

/-- One publish tick: every selected article is marked published with
`publish_date = now`; every other row is untouched. -/
def scheduled_news_publisher_tick (now : Int) (l : List News) : List News :=
  l.map (fun n =>
    if eligibleForPublish now n then { n with is_published := true, publish_date := some now }
    else n)

/-! ## Spec-side formulations

Definitions in this block follow the wording of the specification (for
refinement-style claims); each is compared against the corresponding
source-translated definition by a proved theorem or refuted by a
counterexample. -/

/-- Index of the last space in a string, if any: the "nearest preceding word
boundary" of the title-derivation spec. -/
def lastSpaceIdx : List Char → Option Nat
  | [] => none
  | c :: rest =>
    match lastSpaceIdx rest with
    | some i => some (i + 1)
    | none => if c = ' ' then some 0 else none

/-- Spec wording: truncate "at the nearest preceding word boundary" — cut at
the last space when one exists, otherwise keep the string. -/
def truncateAtWordBoundary (l : List Char) : List Char :=
  match lastSpaceIdx l with
  | some i => l.take i
  | none => l

/-- The first line of the cleaned, hashtag-stripped text (the string the title
is derived from). -/
def titleLine (text : List Char) : List Char :=
  pyStrip ((pyStrip (stripHashtags (clean_vk_text text))).takeWhile (fun c => c != '\n'))

/-- Title derivation as worded by the spec: take the first line of the
cleaned, hashtag-stripped text; if it exceeds 150 characters, truncate its
150-character prefix at the nearest preceding word boundary and append an
ellipsis; substitute the fixed fallback label when the result is empty. -/
def makeTitleSpec (text : List Char) : List Char :=
  let line := titleLine text
  let t :=
    if line.length ≤ 150 then line
    else truncateAtWordBoundary (line.take 150) ++ ellipsis
  if t.isEmpty then fallbackTitle else t

/-- Key normalization exactly as the claim words it: strip one optional
leading `#` from the map key. -/
def stripOneHash (k : List Char) : List Char :=
  match k with
  | '#' :: rest => rest
  | _ => k

/-- Category resolution as worded by the spec, parameterized by the map-key
normalization: the first hashtag of the text (in order of occurrence) that
case-insensitively equals some normalized map key whose category id still
exists wins; otherwise the default. -/
def resolveSpecWith (norm : List Char → List Char) (text : List Char)
    (hashtagMap : Option (List (List Char × Nat))) (defaultCategoryId : Option Nat)
    (cats : List Nat) : Option Nat :=
  match hashtagMap with
  | none => defaultCategoryId
  | some m =>
    match
      (extract_hashtags text).findSome? (fun t =>
        m.findSome? (fun kc =>
          if lowerList (norm kc.1) == lowerList t && cats.contains kc.2 then some kc.2
          else none))
    with
    | some c => some c
    | none => defaultCategoryId

/-- The claim's literal resolver: one optional leading `#` stripped from keys. -/
def resolveSpecOneHash (text : List Char) (hashtagMap : Option (List (List Char × Nat)))
    (defaultCategoryId : Option Nat) (cats : List Nat) : Option Nat :=
  resolveSpecWith stripOneHash text hashtagMap defaultCategoryId cats

/-- The amended resolver: all leading `#` characters stripped from keys
(Python's `lstrip('#')`). -/
def resolveSpecAllHash (text : List Char) (hashtagMap : Option (List (List Char × Nat)))
    (defaultCategoryId : Option Nat) (cats : List Nat) : Option Nat :=
  resolveSpecWith (fun k => k.dropWhile (fun c => c == '#')) text hashtagMap
    defaultCategoryId cats

/-! ## Helper lemmas -/

theorem lastSpaceIdx_eq_none (l : List Char) : lastSpaceIdx l = none ↔ ' ' ∉ l := by
  induction l with
  | nil => simp [lastSpaceIdx]
  | cons c rest ih =>
    simp only [lastSpaceIdx, List.mem_cons]
    cases h : lastSpaceIdx rest with
    | some i =>
      have hmem : ' ' ∈ rest := by
        by_contra hm
        rw [ih.mpr hm] at h
        cases h
      simp [hmem]
    | none =>
      have hrest : ' ' ∉ rest := ih.mp h
      by_cases hc : c = ' '
      · subst hc; simp
      · have hne : ¬ (' ' = c) := fun he => hc he.symm
        simp [hc, hrest, hne]

theorem dropWhile_neSpace_ne_nil (l : List Char) (h : ' ' ∈ l) :
    l.dropWhile (fun c => c != ' ') ≠ [] := by
  induction l with
  | nil => cases h
  | cons c rest ih =>
    rw [List.dropWhile_cons]
    by_cases hc : c = ' '
    · subst hc; simp
    · have : (c != ' ') = true := by simp [hc]
      rw [this, if_pos rfl]
      rcases List.mem_cons.mp h with h1 | h2
      · exact absurd h1.symm hc
      · exact ih h2

theorem rsplitLastSpace_cons_of_mem (c : Char) (rest : List Char) (h : ' ' ∈ rest) :
    rsplitLastSpace (c :: rest) = c :: rsplitLastSpace rest := by
  have hc1 : (c :: rest).contains ' ' = true := by
    simp [List.elem_eq_mem, List.mem_cons, h]
  have hc2 : rest.contains ' ' = true := by simp [List.elem_eq_mem, h]
  rw [rsplitLastSpace, rsplitLastSpace, if_pos hc1, if_pos hc2]
  rw [List.reverse_cons]
  have hne : rest.reverse.dropWhile (fun c => c != ' ') ≠ [] := by
    apply dropWhile_neSpace_ne_nil
    simpa using h
  rw [List.dropWhile_append]
  have : (rest.reverse.dropWhile (fun c => c != ' ')).isEmpty = false := by
    simpa [List.isEmpty_iff] using hne
  rw [this]
  simp only [Bool.false_eq_true, if_false]
  rw [List.drop_append_of_le_length (by
    cases hx : rest.reverse.dropWhile (fun c => c != ' ') with
    | nil => exact absurd hx hne
    | cons a as => simp)]
  rw [List.reverse_append]
  rfl

/-- Python's `rsplit(' ', 1)[0]` is exactly "cut at the last space". -/
theorem rsplitLastSpace_eq_truncate (l : List Char) :
    rsplitLastSpace l = truncateAtWordBoundary l := by
  induction l with
  | nil => rfl
  | cons c rest ih =>
    by_cases hmem : ' ' ∈ rest
    · rw [rsplitLastSpace_cons_of_mem c rest hmem, ih]
      rw [truncateAtWordBoundary, truncateAtWordBoundary]
      cases hidx : lastSpaceIdx rest with
      | none => exact absurd hmem ((lastSpaceIdx_eq_none rest).mp hidx)
      | some i => simp [lastSpaceIdx, hidx]
    · have hidx : lastSpaceIdx rest = none := (lastSpaceIdx_eq_none rest).mpr hmem
      by_cases hc : c = ' '
      · subst hc
        have hcon : (' ' :: rest).contains ' ' = true := by simp
        rw [truncateAtWordBoundary]
        simp only [lastSpaceIdx, hidx, if_pos rfl]
        rw [rsplitLastSpace, if_pos hcon, List.reverse_cons]
        have hall : ∀ a ∈ rest.reverse, (fun c => c != ' ') a = true := by
          intro a ha
          have : a ∈ rest := by simpa using ha
          have : a ≠ ' ' := fun he => hmem (he ▸ this)
          simp [this]
        rw [List.dropWhile_append]
        have hde : (rest.reverse.dropWhile (fun c => c != ' ')).isEmpty = true := by
          rw [List.dropWhile_eq_nil_iff.mpr hall]
          rfl
        rw [hde, if_pos rfl]
        simp [List.dropWhile]
      · have hnc : (c :: rest).contains ' ' = false := by
          have hni : ' ' ∉ c :: rest := by
            rw [List.mem_cons]
            rintro (h1 | h2)
            · exact hc h1.symm
            · exact hmem h2
          simp [List.elem_eq_mem, hni]
        rw [rsplitLastSpace, hnc]
        simp only [Bool.false_eq_true, if_false]
        rw [truncateAtWordBoundary]
        simp [lastSpaceIdx, hidx, hc]

theorem lookupTag_eq_findSome (tl : List Char) (m : List (List Char × Nat))
    (cats : List Nat) :
    lookupTag tl m cats =
      m.findSome? (fun kc =>
        if lowerList (kc.1.dropWhile (fun c => c == '#')) == tl && cats.contains kc.2 then
          some kc.2
        else none) := by
  induction m with
  | nil => rfl
  | cons kc m2 ih =>
    obtain ⟨k, cid⟩ := kc
    rw [lookupTag, List.findSome?]
    by_cases h : (lowerList (k.dropWhile (fun c => c == '#')) == tl && cats.contains cid) = true
    · simp only [h, if_true]
    · rw [Bool.not_eq_true] at h
      simp only [h, Bool.false_eq_true, if_false, ih]

theorem findCat_eq_findSome (tags : List (List Char)) (m : List (List Char × Nat))
    (cats : List Nat) :
    findCat tags m cats = tags.findSome? (fun t => lookupTag (lowerList t) m cats) := by
  induction tags with
  | nil => rfl
  | cons t ts ih =>
    rw [findCat, List.findSome?]
    cases h : lookupTag (lowerList t) m cats with
    | some c => simp [h]
    | none => simp [h, ih]

/-- Helper: `findSome?` of a constantly-`none` function is `none`. -/
theorem findSome?_eq_none_of_none {α β : Type} (l : List α) (f : α → Option β)
    (h : ∀ a, f a = none) : l.findSome? f = none := by
  induction l with
  | nil => rfl
  | cons c rest ih => rw [List.findSome?, h c, ih]

/-! ## Claim theorems -/

/-- C6: Title derivation — for every raw post text, the derived title equals
the first line of the cleaned, hashtag-stripped text; a line longer than 150
characters is truncated at the nearest preceding word boundary within its
150-character prefix and given an ellipsis suffix; an empty result is
replaced by the fixed fallback label.  Stated as equality between the
source-translated `make_title_from_text` and the spec-worded
`makeTitleSpec`. -/
theorem title_derivation_correct (text : List Char) :
    make_title_from_text text = makeTitleSpec text := by
  unfold make_title_from_text makeTitleSpec titleLine
  simp only [rsplitLastSpace_eq_truncate]
  set line :=
    pyStrip ((pyStrip (stripHashtags (clean_vk_text text))).takeWhile
      (fun c => c != '\n')) with hline
  by_cases h : line.length ≤ 150
  · have h2 : ¬ 150 < line.length := by omega
    rw [if_neg h2, if_pos h]
  · have h2 : 150 < line.length := by omega
    rw [if_pos h2, if_neg h]

/-- C7 counterexample: with the map key `"##foo"` (two leading `#`), post text
`"#foo"` and existing category 5, the code (which strips ALL leading `#`
characters from the key, `lstrip('#')`) resolves category 5, while the
claim's literal resolver (which strips only one optional leading `#`)
falls back to the default `none`.  The claim as stated is therefore false. -/
theorem category_resolution_onehash_cex :
    determine_category "#foo".data (some [("##foo".data, 5)]) none [5] = some 5 ∧
      resolveSpecOneHash "#foo".data (some [("##foo".data, 5)]) none [5] = none := by
  decide

/-- C7 (amended): Category resolution — the resolver returns the category id
of the first hashtag in the text (in order of occurrence) that compares
case-insensitively equal to some map key after stripping ALL leading `#`
characters from the key, and whose category id still resolves to an existing
category; if no hashtag matches, or no map is configured, it returns the
integration's default category id (which may itself be null).  Stated as
equality between the source-translated `determine_category` and the
spec-worded `resolveSpecAllHash`. -/
theorem category_resolution_correct (text : List Char)
    (hashtagMap : Option (List (List Char × Nat))) (defaultCategoryId : Option Nat)
    (cats : List Nat) :
    determine_category text hashtagMap defaultCategoryId cats =
      resolveSpecAllHash text hashtagMap defaultCategoryId cats := by
  unfold determine_category resolveSpecAllHash resolveSpecWith
  cases hashtagMap with
  | none => rfl
  | some m =>
    dsimp only
    by_cases hm : m.isEmpty
    · have hnil : m = [] := by
        cases m with
        | nil => rfl
        | cons a b => simp [List.isEmpty] at hm
      subst hnil
      rw [if_pos hm]
      have hz : (extract_hashtags text).findSome?
          (fun t =>
            List.findSome?
              (fun kc =>
                if (lowerList (List.dropWhile (fun c => c == '#') kc.1) == lowerList t &&
                    cats.contains kc.2) = true then some kc.2 else none)
              ([] : List (List Char × Nat))) = none :=
        findSome?_eq_none_of_none _ _ (fun t => rfl)
      rw [hz]
    · rw [if_neg hm, findCat_eq_findSome]
      simp only [lookupTag_eq_findSome]

/-! ## Helper lemmas about the importer -/

theorem ledgerKey_importedLedgerRow (p : VKPost) (I : VKIntegration) (s : DBState) :
    ledgerKey p.id I.id (importedLedgerRow p I s) = true := by
  simp [ledgerKey, importedLedgerRow]

theorem countP_eraseP_self (q : VKImportedPost → Bool) (l : List VKImportedPost) :
    (l.eraseP q).countP q = l.countP q - 1 := by
  induction l with
  | nil => rfl
  | cons a t ih =>
    by_cases hq : q a
    · simp [List.eraseP_cons, hq, List.countP_cons]
    · simp [List.eraseP_cons, hq, List.countP_cons, ih]

theorem find?_none_countP_zero (q : VKImportedPost → Bool) (l : List VKImportedPost)
    (h : l.find? q = none) : l.countP q = 0 := by
  rw [List.countP_eq_zero]
  intro a ha
  have := List.find?_eq_none.mp h a ha
  simpa using this

/-- After a fresh `doImport`, the ledger query for the pair finds exactly the
new row. -/
theorem doImport_find (p : VKPost) (I : VKIntegration) (s : DBState)
    (h : s.ledger.find? (ledgerKey p.id I.id) = none) :
    (doImport p I s).1.ledger.find? (ledgerKey p.id I.id) =
      some (importedLedgerRow p I s) := by
  show (s.ledger ++ [importedLedgerRow p I s]).find? (ledgerKey p.id I.id) = _
  rw [List.find?_append, h]
  simp [List.find?_cons, ledgerKey_importedLedgerRow]

theorem doImport_any_id (p : VKPost) (I : VKIntegration) (s : DBState) :
    (doImport p I s).1.news.any (fun n => n.id == s.nextNewsId) = true := by
  show (s.news ++ [importedNewsRow p I s]).any _ = true
  rw [List.any_append]
  simp [importedNewsRow]

/-! ## Sample data for witnesses -/

def sampleDB : DBState := ⟨[], [], [], 1⟩

def sampleIntegration : VKIntegration :=
  ⟨1, "examplegroup".data, "token".data, "auto", none, true, 10, 5, none, none⟩

def samplePost : VKPost := ⟨11, "Привет мир".data, 0, [], false⟩

/-! ## Claim theorems (importer) -/

/-- C8: Ad and empty-text skip — a post with no text or flagged as an
advertisement is skipped before dedup, transformation or persistence: the
per-post operation returns the state unchanged and creates neither article
nor ledger entry, whatever the state. -/
theorem ad_and_empty_skip (p : VKPost) (I : VKIntegration) (s : DBState)
    (h : p.marked_as_ads = true ∨ p.text.isEmpty = true) :
    process_post p I s = (s, none) := by
  by_cases hads : p.marked_as_ads
  · simp [process_post, hads]
  · rcases h with h | h
    · exact absurd h hads
    · simp [process_post, import_vk_post, hads, h]

theorem ad_and_empty_skip_witness :
    process_post ⟨7, "Реклама".data, 0, [], true⟩ sampleIntegration sampleDB =
      (sampleDB, none) :=
  ad_and_empty_skip _ _ _ (Or.inl rfl)

/-- C1: Idempotent import — when a ledger entry for the pair exists and its
linked article still exists, `import_vk_post` is a complete no-op; and
importing the same post id twice from a fresh state leaves exactly one
ledger entry for the pair and exactly one new article. -/
theorem import_idempotent (p : VKPost) (I : VKIntegration) (s : DBState)
    (htext : p.text.isEmpty = false) :
    (∀ e nid, s.ledger.find? (ledgerKey p.id I.id) = some e →
        e.news_id = some nid → s.news.any (fun n => n.id == nid) = true →
        import_vk_post p I s = (s, none))
    ∧ (s.ledger.find? (ledgerKey p.id I.id) = none →
        import_vk_post p I (import_vk_post p I s).1 = ((import_vk_post p I s).1, none)
        ∧ (import_vk_post p I s).1.ledger.countP (ledgerKey p.id I.id) = 1
        ∧ (import_vk_post p I s).1.news.length = s.news.length + 1) := by
  constructor
  · intro e nid hfind hnid hany
    rw [import_vk_post]
    rw [htext]
    simp only [Bool.false_eq_true, if_false, hfind, hnid, hany, if_true]
  · intro hfind
    have himp : import_vk_post p I s = doImport p I s := by
      rw [import_vk_post, htext]
      simp only [Bool.false_eq_true, if_false, hfind]
    refine ⟨?_, ?_, ?_⟩
    · rw [himp]
      rw [import_vk_post, htext]
      simp only [Bool.false_eq_true, if_false,
        doImport_find p I s hfind, importedLedgerRow,
        doImport_any_id p I s, if_true]
    · rw [himp]
      show (s.ledger ++ [importedLedgerRow p I s]).countP (ledgerKey p.id I.id) = 1
      rw [List.countP_append, find?_none_countP_zero _ _ hfind]
      simp [List.countP_cons, ledgerKey_importedLedgerRow]
    · rw [himp]
      show (s.news ++ [importedNewsRow p I s]).length = s.news.length + 1
      simp

theorem import_idempotent_witness :
    import_vk_post samplePost sampleIntegration
        (import_vk_post samplePost sampleIntegration sampleDB).1 =
      ((import_vk_post samplePost sampleIntegration sampleDB).1, none)
    ∧ (import_vk_post samplePost sampleIntegration sampleDB).1.ledger.countP
        (ledgerKey samplePost.id sampleIntegration.id) = 1
    ∧ (import_vk_post samplePost sampleIntegration sampleDB).1.news.length =
        sampleDB.news.length + 1 :=
  (import_idempotent samplePost sampleIntegration sampleDB (by decide)).2 (by decide)

/-- C2: Stale reimport — when a ledger entry for the pair exists but its
linked article is missing or was never set, `import_vk_post` purges the
stale entry and creates exactly one new article and exactly one ledger
entry linking it, leaving no dangling or duplicate entry for the pair. -/
theorem stale_reimport (p : VKPost) (I : VKIntegration) (s : DBState)
    (e : VKImportedPost)
    (htext : p.text.isEmpty = false)
    (hfind : s.ledger.find? (ledgerKey p.id I.id) = some e)
    (hstale : match e.news_id with
      | some nid => s.news.any (fun n => n.id == nid) = false
      | none => True)
    (huniq : s.ledger.countP (ledgerKey p.id I.id) = 1) :
    (import_vk_post p I s).2 = some s.nextNewsId
    ∧ (import_vk_post p I s).1.news.length = s.news.length + 1
    ∧ (import_vk_post p I s).1.ledger.countP (ledgerKey p.id I.id) = 1
    ∧ ∃ e2, (import_vk_post p I s).1.ledger.find? (ledgerKey p.id I.id) = some e2
        ∧ e2.news_id = some s.nextNewsId
        ∧ (import_vk_post p I s).1.news.any (fun n => n.id == s.nextNewsId) = true := by
  have himp : import_vk_post p I s =
      doImport p I { s with ledger := s.ledger.eraseP (ledgerKey p.id I.id) } := by
    rw [import_vk_post, htext]
    simp only [Bool.false_eq_true, if_false, hfind]
    cases hnid : e.news_id with
    | some nid =>
      rw [hnid] at hstale
      simp only [hstale, Bool.false_eq_true, if_false]
    | none => simp only []
  have herase :
      (s.ledger.eraseP (ledgerKey p.id I.id)).countP (ledgerKey p.id I.id) = 0 := by
    rw [countP_eraseP_self, huniq]
  have herasef :
      (s.ledger.eraseP (ledgerKey p.id I.id)).find? (ledgerKey p.id I.id) = none := by
    rw [List.find?_eq_none]
    intro a ha
    have := (List.countP_eq_zero.mp herase) a ha
    simpa using this
  refine ⟨by rw [himp]; rfl, ?_, ?_, ?_⟩
  · rw [himp]
    show (s.news ++ [importedNewsRow p I _]).length = s.news.length + 1
    simp
  · rw [himp]
    show ((s.ledger.eraseP (ledgerKey p.id I.id)) ++ [importedLedgerRow p I _]).countP
        (ledgerKey p.id I.id) = 1
    rw [List.countP_append, herase]
    simp [List.countP_cons, ledgerKey_importedLedgerRow]
  · refine ⟨importedLedgerRow p I { s with ledger := s.ledger.eraseP (ledgerKey p.id I.id) },
      ?_, rfl, ?_⟩
    · rw [himp]
      exact doImport_find p I _ herasef
    · rw [himp]
      exact doImport_any_id p I _

def staleLedgerDB : DBState := ⟨[], [⟨11, 1, some 99, 0⟩], [], 1⟩

theorem stale_reimport_witness :
    (import_vk_post samplePost sampleIntegration staleLedgerDB).2 =
        some staleLedgerDB.nextNewsId
    ∧ (import_vk_post samplePost sampleIntegration staleLedgerDB).1.news.length =
        staleLedgerDB.news.length + 1
    ∧ (import_vk_post samplePost sampleIntegration staleLedgerDB).1.ledger.countP
        (ledgerKey samplePost.id sampleIntegration.id) = 1
    ∧ ∃ e2, (import_vk_post samplePost sampleIntegration staleLedgerDB).1.ledger.find?
          (ledgerKey samplePost.id sampleIntegration.id) = some e2
        ∧ e2.news_id = some staleLedgerDB.nextNewsId
        ∧ (import_vk_post samplePost sampleIntegration staleLedgerDB).1.news.any
            (fun n => n.id == staleLedgerDB.nextNewsId) = true :=
  stale_reimport samplePost sampleIntegration staleLedgerDB ⟨11, 1, some 99, 0⟩
    (by decide) (by decide) (by decide) (by decide)

/-- C9: Scheduled-publish transition — one publish tick marks published, with
publish timestamp `now`, exactly the articles whose publish flag is unset
and whose scheduled time is non-null and at or before `now`; every other
article is untouched, and the flag of an already-published article is never
unset. -/
theorem publish_transition (now : Int) (l : List News) (i : Nat) (n : News)
    (h : l[i]? = some n) :
    (scheduled_news_publisher_tick now l)[i]? =
      some (if eligibleForPublish now n then
        { n with is_published := true, publish_date := some now }
      else n)
    ∧ (n.is_published = true →
        ((scheduled_news_publisher_tick now l)[i]?.all (fun m => m.is_published)) = true) := by
  have hmap : (scheduled_news_publisher_tick now l)[i]? =
      some (if eligibleForPublish now n then
        { n with is_published := true, publish_date := some now }
      else n) := by
    rw [scheduled_news_publisher_tick, List.getElem?_map, h]
    rfl
  refine ⟨hmap, ?_⟩
  intro hp
  have he : eligibleForPublish now n = false := by
    simp [eligibleForPublish, hp]
  rw [hmap, he]
  simpa using hp

def sampleScheduledNews : News :=
  ⟨1, "t".data, "t".data, [], [], none, none, none, none, false, false, none, some 5, 0⟩

theorem publish_transition_witness :
    (scheduled_news_publisher_tick 10 [sampleScheduledNews])[0]? =
      some (if eligibleForPublish 10 sampleScheduledNews then
        { sampleScheduledNews with is_published := true, publish_date := some 10 }
      else sampleScheduledNews) :=
  (publish_transition 10 [sampleScheduledNews] 0 sampleScheduledNews (by decide)).1

/-! ## Claim theorems (scheduler, manual trigger, configuration) -/

def sampleThrottledInteg : VKIntegration :=
  ⟨1, "g".data, "t".data, "auto", none, true, 10, 5, none, some 0⟩

def sampleManualInteg : VKIntegration :=
  ⟨2, "g".data, "t".data, "manual", none, true, 10, 5, none, none⟩

def sampleOffInteg : VKIntegration :=
  ⟨3, "g".data, "t".data, "off", none, true, 10, 5, none, none⟩

/-- C4: Interval throttle and checkpoint advancement — the ingestion tick
considers only integrations in `auto` mode (with none, it is a no-op); an
integration whose interval has not elapsed gets no fetch and an unchanged
checkpoint; an eligible integration is fetched, and the checkpoint is set to
`now` exactly when the fetch returns posts — a transport failure or an API
error envelope leaves both checkpoint and database untouched. -/
theorem ingestion_throttle_checkpoint (now : Int) (fetch : FetchResult)
    (I : VKIntegration) (db : DBState) :
    (∀ (f : Nat → FetchResult) (integs : List VKIntegration) (d : DBState),
        (∀ i ∈ integs, i.mode ≠ "auto") → vk_fetch_tick now f integs d = ([], d))
    ∧ (∀ last, I.last_checked_at = some last →
        now - last < I.check_interval_minutes * 60 →
        vk_process_integration now fetch I db = ⟨db, I, false, none⟩)
    ∧ ((∀ last, I.last_checked_at = some last →
          ¬(now - last < I.check_interval_minutes * 60)) →
        (vk_process_integration now fetch I db).fetched = true
        ∧ (∀ posts, fetch = .ok posts →
            (vk_process_integration now fetch I db).integ =
              { I with last_checked_at := some now })
        ∧ (fetch = .transportFailure ∨ fetch = .apiError →
            vk_process_integration now fetch I db =
              ⟨db, I, true, some (effectiveFetchCount I.fetch_count)⟩)) := by
  refine ⟨?_, ?_, ?_⟩
  · intro f integs d hmode
    have hfil : integs.filter (fun i => i.mode == "auto") = [] := by
      rw [List.filter_eq_nil_iff]
      intro a ha
      simp [hmode a ha]
    rw [vk_fetch_tick, hfil]
    rfl
  · intro last hlast hlt
    have hth : vk_tick_throttled now I = true := by
      simp [vk_tick_throttled, hlast, hlt]
    simp [vk_process_integration, hth]
  · intro hnt
    have hth : vk_tick_throttled now I = false := by
      rw [vk_tick_throttled]
      cases hl : I.last_checked_at with
      | none => rfl
      | some last => simp [hnt last hl]
    refine ⟨?_, ?_, ?_⟩
    · cases fetch <;> simp [vk_process_integration, hth]
    · intro posts hfe
      subst hfe
      simp [vk_process_integration, hth]
    · intro hfe
      rcases hfe with hfe | hfe <;> (subst hfe; simp [vk_process_integration, hth])

theorem ingestion_throttle_checkpoint_witness :
    vk_fetch_tick 100 (fun _ => FetchResult.apiError) [sampleManualInteg] sampleDB =
      ([], sampleDB)
    ∧ vk_process_integration 100 FetchResult.apiError sampleThrottledInteg sampleDB =
        ⟨sampleDB, sampleThrottledInteg, false, none⟩ :=
  ⟨(ingestion_throttle_checkpoint 100 FetchResult.apiError sampleThrottledInteg
      sampleDB).1 (fun _ => FetchResult.apiError) [sampleManualInteg] sampleDB (by decide),
    (ingestion_throttle_checkpoint 100 FetchResult.apiError sampleThrottledInteg
      sampleDB).2.1 0 rfl (by decide)⟩

/-- Observable projection of a manual-trigger outcome: on success, the news
count of the resulting state together with the reported
`{imported, total_checked}` counters. -/
def fetchNowObs (r : Except FetchNowError (AdminState × Nat × Nat)) :
    Option (Nat × Nat × Nat) :=
  match r with
  | .ok (st2, n, total) => some (st2.db.news.length, n, total)
  | .error _ => none

def cexAutoState : AdminState := ⟨some sampleIntegration, sampleDB, 2⟩

/-- C3 counterexample: the manual trigger does NOT restrict itself to
integrations in `manual` mode — with the single configured integration in
`auto` mode it still performs a full fetch-and-import pass (here importing
one article).  The claim that only `manual`-mode integrations are processed
by the manual trigger is therefore false. -/
theorem manual_trigger_auto_cex :
    sampleIntegration.mode = "auto"
    ∧ sampleIntegration.mode ≠ "manual"
    ∧ fetchNowObs (fetch_now 0 (fun _ => FetchResult.ok [samplePost]) cexAutoState) =
        some (1, 1, 1) := by
  decide

/-- C3 (amended): Manual trigger mode gating — the manual fetch rejects
synchronously with an explicit error, independent of the remote feed and
with no state change, when no integration is configured or when the
integration's mode is `off`; for every integration whose mode is anything
other than `off` (both `manual` and `auto`) it performs the
fetch-and-import pass, surfacing transport failures and API error envelopes
to the caller and otherwise importing the batch and advancing the
checkpoint. -/
theorem manual_trigger_mode_gating (now : Int) (fetch : Int → FetchResult)
    (st : AdminState) :
    (st.integration = none → fetch_now now fetch st = .error .notConfigured)
    ∧ (∀ I, st.integration = some I → I.mode = "off" →
        fetch_now now fetch st = .error .modeOff)
    ∧ (∀ I, st.integration = some I → I.mode ≠ "off" →
        (fetch (effectiveFetchCount I.fetch_count) = .transportFailure →
            fetch_now now fetch st = .error .transport)
        ∧ (fetch (effectiveFetchCount I.fetch_count) = .apiError →
            fetch_now now fetch st = .error .vkApi)
        ∧ (∀ posts, fetch (effectiveFetchCount I.fetch_count) = .ok posts →
            fetch_now now fetch st = .ok
              ({ st with
                  integration := some { I with last_checked_at := some now }
                  db := (runImports posts I st.db).1 },
                (runImports posts I st.db).2, posts.length))) := by
  refine ⟨?_, ?_, ?_⟩
  · intro h
    simp [fetch_now, h]
  · intro I hI hoff
    simp [fetch_now, hI, hoff]
  · intro I hI hne
    have hmode : (I.mode == "off") = false := by
      simpa using hne
    refine ⟨?_, ?_, ?_⟩
    · intro hf
      simp [fetch_now, hI, hmode, hf]
    · intro hf
      simp [fetch_now, hI, hmode, hf]
    · intro posts hf
      simp [fetch_now, hI, hmode, hf]

theorem manual_trigger_mode_gating_witness :
    fetch_now 0 (fun _ => FetchResult.apiError)
        (⟨none, sampleDB, 1⟩ : AdminState) = .error FetchNowError.notConfigured
    ∧ fetch_now 0 (fun _ => FetchResult.apiError)
        (⟨some sampleOffInteg, sampleDB, 2⟩ : AdminState) = .error FetchNowError.modeOff :=
  ⟨(manual_trigger_mode_gating 0 (fun _ => FetchResult.apiError)
      ⟨none, sampleDB, 1⟩).1 rfl,
    (manual_trigger_mode_gating 0 (fun _ => FetchResult.apiError)
      ⟨some sampleOffInteg, sampleDB, 2⟩).2.1 sampleOffInteg rfl rfl⟩

def cexCreateData : VKIntegrationCreate :=
  { group_id := "examplegroup".data
    access_token := "t".data
    mode := "auto"
    fetch_count := 500 }

/-- C5 counterexample: the create operation stores a configured batch size of
500 unchanged (no clamping to 1–100), and the ingestion pass then issues the
fetch with `count = 500` — outside the claimed 1–100 bound. -/
theorem fetch_count_clamp_cex :
    ((create_vk_integration cexCreateData ⟨none, sampleDB, 1⟩).integration.map
        (fun i => i.fetch_count)) = some 500
    ∧ ((create_vk_integration cexCreateData ⟨none, sampleDB, 1⟩).integration.map
        (fun i => (vk_process_integration 0 FetchResult.apiError i sampleDB).usedCount)) =
      some (some 500)
    ∧ ¬((500 : Int) ≤ 100) := by
  decide

/-- C5 (amended): Fetch batch size — only the partial-update operation clamps
the configured count into 1–100 (`max(1, min(100, ...))`); the create
operation stores the supplied value unchanged, and both fetch paths issue
the stored value unclamped, substituting the default 20 only when the
stored value is 0/absent. -/
theorem fetch_count_clamping (d : VKIntegrationUpdate) (i : VKIntegration)
    (data : VKIntegrationCreate) (st : AdminState) (now : Int) (fetch : FetchResult)
    (I : VKIntegration) (db : DBState) :
    (∀ n, d.fetch_count = some n →
        (update_vk_integration d i).fetch_count = max 1 (min 100 n)
        ∧ 1 ≤ (update_vk_integration d i).fetch_count
        ∧ (update_vk_integration d i).fetch_count ≤ 100)
    ∧ (∀ I2, (create_vk_integration data st).integration = some I2 →
        I2.fetch_count = data.fetch_count)
    ∧ (vk_tick_throttled now I = false →
        (vk_process_integration now fetch I db).usedCount =
          some (effectiveFetchCount I.fetch_count))
    ∧ (I.fetch_count = 0 → effectiveFetchCount I.fetch_count = 20)
    ∧ (I.fetch_count ≠ 0 → effectiveFetchCount I.fetch_count = I.fetch_count) := by
  refine ⟨?_, ?_, ?_, ?_, ?_⟩
  · intro n hn
    have hfc : (update_vk_integration d i).fetch_count = max 1 (min 100 n) := by
      unfold update_vk_integration
      rw [hn]
      cases d.hashtag_category_map <;> rfl
    exact ⟨hfc, by rw [hfc]; omega, by rw [hfc]; omega⟩
  · intro I2 h
    unfold create_vk_integration at h
    cases hst : st.integration <;> rw [hst] at h <;> (injection h with h2; rw [← h2])
  · intro hth
    cases fetch <;> simp [vk_process_integration, hth]
  · intro h
    simp [effectiveFetchCount, h]
  · intro h
    simp [effectiveFetchCount, h]

theorem fetch_count_clamping_witness :
    (update_vk_integration { fetch_count := some 500 } sampleIntegration).fetch_count =
      max 1 (min 100 500)
    ∧ 1 ≤ (update_vk_integration { fetch_count := some 500 } sampleIntegration).fetch_count
    ∧ (update_vk_integration { fetch_count := some 500 } sampleIntegration).fetch_count ≤
        100 :=
  (fetch_count_clamping { fetch_count := some 500 } sampleIntegration cexCreateData
    ⟨none, sampleDB, 1⟩ 0 FetchResult.apiError sampleIntegration sampleDB).1 500 rfl

def c10Art : News :=
  ⟨7, "x".data, "x".data, [], [], none, none, none, none, true, true, some 3, none, 3⟩

def c10State : AdminState :=
  ⟨some sampleIntegration, ⟨[c10Art], [⟨11, 1, some 7, 0⟩], [], 8⟩, 2⟩

def c10NewInteg : VKIntegration :=
  ⟨2, "examplegroup".data, "t".data, "auto", none, true, 10, 500, none, none⟩

/-- C10: Create-replaces semantics — creating a configuration while one exists
deletes the old record (leaving exactly one configured integration), the
deletion cascade-removes all of the old record's ledger entries while the
articles they referenced stay in place, and a post previously imported under
the replaced configuration is then re-imported from scratch, producing a
second article alongside the surviving one. -/
theorem create_replace_reimport
    (data : VKIntegrationCreate) (st : AdminState) (I : VKIntegration)
    (p : VKPost) (e : VKImportedPost) (art : News)
    (hI : st.integration = some I)
    (hledger : ∀ r ∈ st.db.ledger, r.vk_integration_id = I.id)
    (he : e ∈ st.db.ledger) (hep : e.vk_post_id = p.id) (hen : e.news_id = some art.id)
    (hart : art ∈ st.db.news)
    (htext : p.text.isEmpty = false) :
    (create_vk_integration data st).integration.isSome = true
    ∧ (create_vk_integration data st).db.ledger = []
    ∧ (create_vk_integration data st).db.news = st.db.news
    ∧ (∀ I2, (create_vk_integration data st).integration = some I2 →
        (import_vk_post p I2 (create_vk_integration data st).db).2 =
          some st.db.nextNewsId
        ∧ art ∈ (import_vk_post p I2 (create_vk_integration data st).db).1.news
        ∧ (import_vk_post p I2 (create_vk_integration data st).db).1.news.length =
            st.db.news.length + 1
        ∧ (import_vk_post p I2 (create_vk_integration data st).db).1.ledger.countP
            (ledgerKey p.id I2.id) = 1) := by
  have hfil : st.db.ledger.filter (fun r => !(r.vk_integration_id == I.id)) = [] := by
    rw [List.filter_eq_nil_iff]
    intro a ha
    simp [hledger a ha]
  have hdb : (create_vk_integration data st).db = { st.db with ledger := [] } := by
    unfold create_vk_integration
    rw [hI]
    dsimp only
    rw [hfil]
  have hsome : (create_vk_integration data st).integration.isSome = true := by
    unfold create_vk_integration
    rw [hI]
    rfl
  refine ⟨hsome, by rw [hdb], by rw [hdb], ?_⟩
  intro I2 hI2
  have hfind :
      ((create_vk_integration data st).db.ledger.find? (ledgerKey p.id I2.id)) = none := by
    rw [hdb]
    rfl
  have himp : import_vk_post p I2 (create_vk_integration data st).db =
      doImport p I2 (create_vk_integration data st).db := by
    rw [import_vk_post, htext]
    simp only [Bool.false_eq_true, if_false, hfind]
  refine ⟨?_, ?_, ?_, ?_⟩
  · rw [himp, hdb]
    rfl
  · rw [himp]
    show art ∈ (create_vk_integration data st).db.news ++
      [importedNewsRow p I2 (create_vk_integration data st).db]
    rw [hdb]
    exact List.mem_append.mpr (Or.inl hart)
  · rw [himp]
    show ((create_vk_integration data st).db.news ++
      [importedNewsRow p I2 (create_vk_integration data st).db]).length =
        st.db.news.length + 1
    rw [hdb]
    simp
  · rw [himp]
    show ((create_vk_integration data st).db.ledger ++
      [importedLedgerRow p I2 (create_vk_integration data st).db]).countP
        (ledgerKey p.id I2.id) = 1
    rw [hdb]
    simp [List.countP_cons, ledgerKey_importedLedgerRow]

theorem create_replace_reimport_witness :
    (create_vk_integration cexCreateData c10State).integration.isSome = true
    ∧ (create_vk_integration cexCreateData c10State).db.ledger = []
    ∧ (create_vk_integration cexCreateData c10State).db.news = c10State.db.news
    ∧ ((import_vk_post samplePost c10NewInteg
          (create_vk_integration cexCreateData c10State).db).2 =
        some c10State.db.nextNewsId
      ∧ c10Art ∈ (import_vk_post samplePost c10NewInteg
          (create_vk_integration cexCreateData c10State).db).1.news
      ∧ (import_vk_post samplePost c10NewInteg
          (create_vk_integration cexCreateData c10State).db).1.news.length =
          c10State.db.news.length + 1
      ∧ (import_vk_post samplePost c10NewInteg
          (create_vk_integration cexCreateData c10State).db).1.ledger.countP
          (ledgerKey samplePost.id c10NewInteg.id) = 1) := by
  have h := create_replace_reimport cexCreateData c10State sampleIntegration samplePost
    ⟨11, 1, some 7, 0⟩ c10Art rfl (by decide) (by decide) (by decide) (by decide)
    (by decide) (by decide)
  exact ⟨h.1, h.2.1, h.2.2.1, h.2.2.2 c10NewInteg (by decide)⟩

end EuroBot
